/-
Verification of the fcm-go send/retry/reconciliation engine.

This file gives a shallow embedding of the core logic of `fcm.go`
(`Send`, `calcBackoff`, `processResp`, `isRetry`, `parseRetryAfter`)
and proves or refutes the specification's claims about it.

Modelling conventions:
- `time.Duration` values (int64 nanoseconds in Go) are `Int` nanoseconds;
  the one place the code can overflow (`currentBackoff * 2`) is modelled
  with an explicit 64-bit wrap `i64wrap`.
- The HTTP transport (`Client.send`, minus its `parseRetryAfter` call,
  which is embedded separately) is a parameter: attempt number and the
  registration ids sent map to either a transport error or a decoded
  `Response`.
- The `Store` collaborator is a parameter mapping each call to `none`
  (success) or `some e` (the store's error value of type `E`); the
  sequence of store calls actually issued is returned as a trace.
- Go's `nil` slice / non-`nil` slice distinction for the `toRetry`
  result is kept as an `Option (List String)`: the accumulator starts
  `nil` and `append` always yields a non-`nil` slice, so the returned
  slice is `nil` exactly when no element was ever appended.
- A Go out-of-range slice index (a runtime panic) is the distinct
  outcome `ProcOut.panic`.
- The unbounded `for` loop of `Send` is given fuel; returning `none`
  for every fuel value means the loop never returns.
-/
import Mathlib

namespace Fcm

/-- One entry of the FCM response's `results` list (`messages.go`, `Result`). -/
structure Result where
  messageId : String
  registrationId : String
  error : String
deriving DecidableEq, Repr

/-- The decoded FCM response body (`messages.go`, `HttpResponse`). -/
structure HttpResponse where
  multicastId : Int
  success : Nat
  failure : Nat
  canonicalIds : Nat
  results : List Result
  messageId : Int
  error : String
deriving DecidableEq, Repr

/-- The internal `response` struct of `fcm.go`: decoded body, HTTP status
code, and the parsed `Retry-After` hint (`none` when the header is absent
or unusable), in nanoseconds. -/
structure Response where
  httpResp : HttpResponse
  statusCode : Nat
  retryAfter : Option Int
deriving DecidableEq, Repr

/-- `fcm.go` `ClientOptions`: backoff bounds in nanoseconds and the retry
attempt bound (a Go `int`). -/
structure ClientOptions where
  minBackoff : Int
  maxBackoff : Int
  maxRetryAttempts : Int
deriving DecidableEq, Repr

/-- `defaultMinBackoff = 1 * time.Second`. -/
def defaultMinBackoff : Int := 1000000000

/-- `defaultMaxBackoff = 10 * time.Second`. -/
def defaultMaxBackoff : Int := 10000000000

/-- `defaultMaxRetryAttempts = 5`. -/
def defaultMaxRetryAttempts : Int := 5

/-- `DefaultClientOptions` of `fcm.go`. -/
def DefaultClientOptions : ClientOptions :=
  ⟨defaultMinBackoff, defaultMaxBackoff, defaultMaxRetryAttempts⟩

/-- `isRetry` of `fcm.go`: the retriable per-recipient reason codes. -/
def isRetry (err : String) : Bool :=
  err = "Unavailable" || err = "InternalServerError"

/-- Signed 64-bit wraparound, for Go's `int64` duration arithmetic. -/
def i64wrap (x : Int) : Int := (x + 2 ^ 63) % 2 ^ 64 - 2 ^ 63

/-- `calcBackoff` of `fcm.go`:
uses `retryAfter` if available (raised to `MinBackoff`), otherwise doubles
the current backoff and clamps it by `MaxBackoff` then `MinBackoff`. -/
def calcBackoff (opts : ClientOptions) (retryAfter : Option Int)
    (currentBackoff : Int) : Int :=
  match retryAfter with
  | some ra => if ra < opts.minBackoff then opts.minBackoff else ra
  | none =>
    let backoff := i64wrap (currentBackoff * 2)
    if backoff > opts.maxBackoff then opts.maxBackoff
    else if backoff < opts.minBackoff then opts.minBackoff
    else backoff

/-- Lines 131-134 of `fcm.go` `Send`: the slept backoff (first component)
and the `currentBackoff` value carried to the next attempt (second
component; updated only when no `Retry-After` hint was present). -/
def sendBackoffUpdate (opts : ClientOptions) (retryAfter : Option Int)
    (currentBackoff : Int) : Int × Int :=
  let backoff := calcBackoff opts retryAfter currentBackoff
  (backoff, if retryAfter.isNone then backoff else currentBackoff)

/-- A call issued to the `Store` collaborator. -/
inductive StoreCall where
  | update (oldRegId newRegId : String)
  | delete (regId : String)
deriving DecidableEq, Repr

/-- Outcome of `processResp`: a Go index-out-of-range panic, an early
return with a store error, or the normal return. Each non-panic outcome
carries the trace of store calls issued (the failing call included). -/
inductive ProcOut (E : Type) where
  | panic
  | fail (e : E) (trace : List StoreCall)
  | ok (toRetry : Option (List String)) (trace : List StoreCall)
deriving DecidableEq, Repr

/-- Go's `toRetry` slice is `nil` exactly when nothing was appended. -/
def optOfList (l : List String) : Option (List String) :=
  if l.isEmpty then none else some l

/-- The `for i, result := range httpResp.Results` loop of `processResp`
(`fcm.go` lines 186-212). `tokens` is the `registrationIds` argument,
`i` the running index, `acc` the `toRetry` accumulator and `tr` the trace
of store calls issued so far. `tokens[i]?` being out of range is the Go
panic of `registrationIds[i]`. -/
def procLoop (store : StoreCall → Option E) (tokens : List String) :
    List Result → Nat → List String → List StoreCall → ProcOut E
  | [], _, acc, tr => .ok (optOfList acc) tr
  | r :: rs, i, acc, tr =>
    match tokens[i]? with
    | none => .panic
    | some regId =>
      if r.messageId ≠ "" then
        if r.registrationId ≠ "" then
          match store (.update regId r.registrationId) with
          | some e => .fail e (tr ++ [.update regId r.registrationId])
          | none => procLoop store tokens rs (i + 1) acc
              (tr ++ [.update regId r.registrationId])
        else
          procLoop store tokens rs (i + 1) acc tr
      else if isRetry r.error then
        procLoop store tokens rs (i + 1) (acc ++ [regId]) tr
      else
        match store (.delete regId) with
        | some e => .fail e (tr ++ [.delete regId])
        | none => procLoop store tokens rs (i + 1) acc (tr ++ [.delete regId])

/-- `processResp` of `fcm.go`: the all-successful fast path
(`Failure == 0 && CanonicalIds == 0`) returns a `nil` retry slice with no
store calls; otherwise the reconciliation loop runs. -/
def processResp (store : StoreCall → Option E) (registrationIds : List String)
    (resp : Response) : ProcOut E :=
  if resp.httpResp.failure = 0 ∧ resp.httpResp.canonicalIds = 0 then
    .ok none []
  else
    procLoop store registrationIds resp.httpResp.results 0 [] []

/-- The error results `Send` can produce. `sendFail` is the wrapped
transport error; `storeFail e` is the store's own error value `e`,
returned by `Send` exactly as `processResp` returned it (the constructor
is only the sum-type injection, the payload is passed through unchanged,
as in the Go code where both are plain `error` values). -/
inductive SendError (T E : Type) where
  | sendFail (t : T)
  | badRequest
  | unauthorized
  | storeFail (e : E)
  | exhausted
deriving DecidableEq, Repr

/-- Final outcome of `Send`: the returned `HttpResponse`, an error, or a
propagated index panic from `processResp`. -/
inductive SendOutcome (T E : Type) where
  | ok (resp : HttpResponse)
  | err (e : SendError T E)
  | panic
deriving DecidableEq, Repr

/-- The mutable state of `Send`'s attempt loop: `m.RegistrationIds`
(reassigned to the retry subset), `currentBackoff`, the `attempts`
counter, the number of transport exchanges performed so far (indexing the
scripted transport), and the accumulated store-call trace and total slept
duration. -/
structure SendState where
  regIds : List String
  currentBackoff : Int
  attempts : Int
  attemptIdx : Nat
  trace : List StoreCall
  slept : Int
deriving DecidableEq, Repr

/-- The `Loop:` of `Send` (`fcm.go` lines 109-149), fuel-indexed.
`origIds` is the local `registrationIds` captured once before the loop at
line 104 - note it, not the narrowed `st.regIds`, is what line 124 passes
to `processResp` on every attempt. Returns `none` when fuel runs out
before the loop returns; the attempt-bound check at line 146 sits after
the `switch` and is reached only when the status code matched no case,
since the 200-with-retry path leaves the iteration via `continue`. -/
def sendLoop (opts : ClientOptions) (store : StoreCall → Option E)
    (transport : Nat → List String → Except T Response)
    (origIds : List String) :
    Nat → SendState → Option (SendOutcome T E × List StoreCall × Int)
  | 0, _ => none
  | fuel + 1, st =>
    match transport st.attemptIdx st.regIds with
    | .error t => some (.err (.sendFail t), st.trace, st.slept)
    | .ok resp =>
      if resp.statusCode = 400 then some (.err .badRequest, st.trace, st.slept)
      else if resp.statusCode = 401 then
        some (.err .unauthorized, st.trace, st.slept)
      else if resp.statusCode = 200 then
        match processResp store origIds resp with
        | .panic => some (.panic, st.trace, st.slept)
        | .fail e tr => some (.err (.storeFail e), st.trace ++ tr, st.slept)
        | .ok toRetry tr =>
          match toRetry with
          | some ids =>
            let p := sendBackoffUpdate opts resp.retryAfter st.currentBackoff
            sendLoop opts store transport origIds fuel
              { regIds := ids, currentBackoff := p.2,
                attempts := st.attempts + 1, attemptIdx := st.attemptIdx + 1,
                trace := st.trace ++ tr, slept := st.slept + p.1 }
          | none => some (.ok resp.httpResp, st.trace ++ tr, st.slept)
      else
        if st.attempts ≥ opts.maxRetryAttempts + 1 then
          some (.err .exhausted, st.trace, st.slept)
        else
          sendLoop opts store transport origIds fuel
            { st with attemptIdx := st.attemptIdx + 1 }

/-- `Send` of `fcm.go`: runs the attempt loop from the initial state
(`registrationIds := m.RegistrationIds`, `currentBackoff := MinBackoff`,
`attempts := 1`). -/
def Send (opts : ClientOptions) (store : StoreCall → Option E)
    (transport : Nat → List String → Except T Response)
    (registrationIds : List String) (fuel : Nat) :
    Option (SendOutcome T E × List StoreCall × Int) :=
  sendLoop opts store transport registrationIds fuel
    ⟨registrationIds, opts.minBackoff, 1, 0, [], 0⟩

/-- Go's zero `time.Time` (January 1, year 1 UTC) in nanoseconds relative
to the Unix epoch: the value `http.ParseTime` leaves in `t` when parsing
fails. -/
def goZeroTime : Int := -62135596800000000000

/-- `parseRetryAfter` of `fcm.go`. `parseDur` models
`time.ParseDuration` (the code appends `"s"` to the header value first)
and `parseTm` models `http.ParseTime`, both returning `none` on a parse
error; `now` is the injectable `nowHook` clock, modelled as a single
instant (the code reads it twice in immediate succession). Times and
durations are nanoseconds. The error payload carries no information, as
only its presence matters to the caller. -/
def parseRetryAfter (parseDur : String → Option Int)
    (parseTm : String → Option Int) (now : Int) (date : String) :
    Except Unit (Option Int) :=
  if date = "" then .ok none
  else
    match parseDur (date ++ "s") with
    | some d => .ok (some d)
    | none =>
      let t := (parseTm date).getD goZeroTime
      if t < now then .ok none
      else
        match parseTm date with
        | none => .error ()
        | some t2 => .ok (some (t2 - now))

/-- Model of Go `time.ParseDuration` restricted to the fragment the
deployed caller can produce from an integral header value: an optional
minus sign, one or more ASCII digits, and the final unit `s` the caller
appended. The value is that many (possibly negative) seconds in
nanoseconds, e.g. `"5s" ↦ 5e9` and `"-5s" ↦ -5e9`, exactly as
`time.ParseDuration` computes on these inputs. Inputs outside the
fragment are not modelled and map to `none`. -/
def goParseDurationFrag (s : String) : Option Int :=
  let p : Int × List Char :=
    match s.data with
    | '-' :: rest => (-1, rest)
    | cs => (1, cs)
  match p.2.reverse with
  | 's' :: revDigits =>
    let ds := revDigits.reverse
    if ds ≠ [] ∧ ds.all Char.isDigit then
      some (p.1 * ds.foldl (fun a c => 10 * a + ((c.toNat : Int) - 48)) 0
        * 1000000000)
    else none
  | _ => none

/-- The amended contract of `parseRetryAfter`, following the spec's words
as corrected by the counterexamples: empty input, input neither format
recognizes, and an HTTP-date strictly before `now` yield "no hint"; an
HTTP-date at or after `now` yields the duration to it (zero when equal);
a numeric input yields its parsed duration verbatim. -/
def parseRetryAfterAmendedSpec (parseDur : String → Option Int)
    (parseTm : String → Option Int) (now : Int) (date : String) :
    Option Int :=
  if date = "" then none
  else
    match parseDur (date ++ "s") with
    | some d => some d
    | none =>
      match parseTm date with
      | none => none
      | some t => if t < now then none else some (t - now)

/-- A store whose calls all succeed. -/
def storeOk : StoreCall → Option String := fun _ => none

/-- The token a paired (token, result) entry contributes to the retry
subset: exactly the retry-eligible failures. -/
def retrySel (p : String × Result) : Option String :=
  if p.2.messageId = "" ∧ isRetry p.2.error = true then some p.1 else none

/-- The store call a paired (token, result) entry gives rise to: an
`update` for a delivered-with-rename result, a `delete` for a terminal
failure, nothing otherwise. -/
def callSel (p : String × Result) : Option StoreCall :=
  if p.2.messageId ≠ "" then
    if p.2.registrationId ≠ "" then some (.update p.1 p.2.registrationId)
    else none
  else if isRetry p.2.error = true then none
  else some (.delete p.1)

/-- A per-recipient result carrying only the retriable `Unavailable`
reason. -/
def unavailResult : Result := ⟨"", "", "Unavailable"⟩

/-- A 200 response whose single result is retry-eligible and that carries
no `Retry-After` hint. -/
def retryResp : Response :=
  ⟨⟨108, 0, 1, 0, [unavailResult], 0, ""⟩, 200, none⟩

/-- A response whose counts report full success but whose result list is
nonetheless populated (even with a retriable reason). -/
def c9Resp : Response :=
  ⟨⟨1, 2, 0, 0, [⟨"m", "", ""⟩, ⟨"", "", "Unavailable"⟩], 0, ""⟩, 200, none⟩

/-- Attempt script for C2: the first attempt reports the second token
retriable, so the narrowed batch for the second attempt is `["b"]`; the
transport refuses (with an error) to answer the second attempt unless
exactly `["b"]` was sent, and then reports its single result — which by
the FCM response contract describes the one token actually sent — as a
terminal failure. -/
def c2Script : Nat → List String → Except String Response := fun i ids =>
  if i = 0 then
    .ok ⟨⟨108, 1, 1, 0, [⟨"m1", "", ""⟩, unavailResult], 0, ""⟩, 200, none⟩
  else if ids = ["b"] then
    .ok ⟨⟨108, 0, 1, 0, [⟨"", "", "NotRegistered"⟩], 0, ""⟩, 200, none⟩
  else .error "unexpected recipients"

/-- The spec's §8 worked example: top-level-success-but-retryable
responses with hints `[5s, none, none, 15s]`, then full success. -/
def backoffScript : Nat → List String → Except String Response := fun i _ =>
  if i = 0 then .ok ⟨⟨108, 0, 1, 0, [unavailResult], 0, ""⟩, 200, some 5000000000⟩
  else if i = 1 then .ok retryResp
  else if i = 2 then .ok retryResp
  else if i = 3 then
    .ok ⟨⟨108, 0, 1, 0, [unavailResult], 0, ""⟩, 200, some 15000000000⟩
  else .ok ⟨⟨108, 1, 0, 0, [⟨"12", "", ""⟩], 0, ""⟩, 200, none⟩

/-- The spec's 6-token worked example for C6. -/
def c6Tokens : List String := ["4", "8", "15", "16", "23", "42"]

/-- The result list `[delivered, retry-eligible, terminal, delivered,
delivered-with-rename, terminal]` of the C6 worked example. -/
def c6Resp : Response :=
  ⟨⟨216, 3, 3, 1,
    [⟨"1:0408", "", ""⟩, ⟨"", "", "Unavailable"⟩,
     ⟨"", "", "InvalidRegistration"⟩, ⟨"1:1516", "", ""⟩,
     ⟨"1:2342", "32", ""⟩, ⟨"", "", "NotRegistered"⟩], 0, ""⟩, 200, none⟩

/-- A store that fails on deleting token `"x"`. -/
def c7Store : StoreCall → Option String := fun c =>
  match c with
  | .delete r => if r = "x" then some "boom" else none
  | _ => none

/-- A 200 response whose single result is a terminal failure. -/
def c7Resp : Response :=
  ⟨⟨1, 0, 1, 0, [⟨"", "", "NotRegistered"⟩], 0, ""⟩, 200, none⟩

/-- With an all-succeeding store and enough tokens, the reconciliation
loop returns normally: the retry subset is the (ordered) tokens paired
with retry-eligible results, and the store-call trace is the (ordered)
update/delete calls the paired results demand. -/
theorem procLoop_ok_spec (ts : List String) (rs : List Result) :
    ∀ (i : Nat) (acc : List String) (tr : List StoreCall),
      i + rs.length ≤ ts.length →
      procLoop storeOk ts rs i acc tr =
        .ok (optOfList (acc ++ ((ts.drop i).zip rs).filterMap retrySel))
            (tr ++ ((ts.drop i).zip rs).filterMap callSel) := by
  induction rs with
  | nil => intro i acc tr h; simp [procLoop]
  | cons r rs ih =>
    intro i acc tr h
    simp only [List.length_cons] at h
    have hi : i < ts.length := by omega
    have hget : ts[i]? = some ts[i] := List.getElem?_eq_getElem hi
    have hdrop : ts.drop i = ts[i] :: ts.drop (i + 1) :=
      List.drop_eq_getElem_cons hi
    rw [hdrop]
    simp only [List.zip_cons_cons, List.filterMap_cons]
    simp only [procLoop, hget]
    by_cases hm : r.messageId = ""
    · by_cases hr : isRetry r.error = true
      · rw [if_neg (by simp [hm]), if_pos hr,
          ih (i + 1) (acc ++ [ts[i]]) tr (by omega)]
        simp [retrySel, callSel, hm, hr]
      · rw [if_neg (by simp [hm]), if_neg (by simp [hr])]
        simp only [storeOk]
        rw [ih (i + 1) acc (tr ++ [StoreCall.delete ts[i]]) (by omega)]
        simp [retrySel, callSel, hm, hr]
    · by_cases hc : r.registrationId = ""
      · rw [if_pos (by simp [hm]), if_neg (by simp [hc]),
          ih (i + 1) acc tr (by omega)]
        simp [retrySel, callSel, hm, hc]
      · rw [if_pos (by simp [hm]), if_pos (by simp [hc])]
        simp only [storeOk]
        rw [ih (i + 1) acc (tr ++ [StoreCall.update ts[i] r.registrationId]) (by omega)]
        simp [retrySel, callSel, hm, hc]

/-- With an all-succeeding store, a result list longer than the remaining
tokens drives the reconciliation loop into the out-of-range index access. -/
theorem procLoop_panic (ts : List String) (rs : List Result) :
    ∀ (i : Nat) (acc : List String) (tr : List StoreCall),
      rs ≠ [] → ts.length < i + rs.length →
      procLoop storeOk ts rs i acc tr = .panic := by
  induction rs with
  | nil => intro i acc tr hne _; exact absurd rfl hne
  | cons r rs ih =>
    intro i acc tr _ hlen
    simp only [List.length_cons] at hlen
    by_cases hi : i < ts.length
    · have hget : ts[i]? = some ts[i] := List.getElem?_eq_getElem hi
      have hne2 : rs ≠ [] := by
        intro h0
        rw [h0] at hlen
        simp at hlen
        omega
      simp only [procLoop, hget, storeOk]
      have hrec := fun acc2 tr2 => ih (i + 1) acc2 tr2 hne2 (by omega)
      split_ifs <;> apply hrec
    · have hget : ts[i]? = none := by
        rw [List.getElem?_eq_none]
        omega
      simp [procLoop, hget]

/-- When the reconciliation loop returns a store error, the trace it
produced extends the incoming trace by zero or more succeeding calls
followed by exactly the one failing call, whose error is the returned
one: no further store call is issued after a failure. -/
theorem procLoop_fail_shape {E : Type} (store : StoreCall → Option E)
    (ts : List String) (rs : List Result) :
    ∀ (i : Nat) (acc : List String) (tr0 : List StoreCall) (e : E)
      (tr : List StoreCall),
      procLoop store ts rs i acc tr0 = .fail e tr →
      ∃ pre c, tr = tr0 ++ (pre ++ [c]) ∧ store c = some e ∧
        ∀ c2 ∈ pre, store c2 = none := by
  induction rs with
  | nil => intro i acc tr0 e tr h; simp [procLoop] at h
  | cons r rs ih =>
    intro i acc tr0 e tr h
    cases hget : ts[i]? with
    | none => simp [procLoop, hget] at h
    | some regId =>
      simp only [procLoop, hget] at h
      by_cases hm : r.messageId = ""
      · rw [if_neg (by simp [hm])] at h
        by_cases hr : isRetry r.error = true
        · rw [if_pos hr] at h
          exact ih (i + 1) (acc ++ [regId]) tr0 e tr h
        · rw [if_neg (by simp [hr])] at h
          cases hst : store (StoreCall.delete regId) with
          | some e2 =>
            rw [hst] at h
            obtain ⟨he, htr⟩ : e2 = e ∧ tr0 ++ [StoreCall.delete regId] = tr := by
              cases h
              exact ⟨rfl, rfl⟩
            exact ⟨[], StoreCall.delete regId, by simp [htr.symm],
              by rw [hst, he], by simp⟩
          | none =>
            rw [hst] at h
            obtain ⟨pre, c, htr, hc, hpre⟩ :=
              ih (i + 1) acc (tr0 ++ [StoreCall.delete regId]) e tr h
            refine ⟨StoreCall.delete regId :: pre, c, by simp [htr], hc, ?_⟩
            intro c2 hc2
            rcases List.mem_cons.mp hc2 with h1 | h1
            · rw [h1]; exact hst
            · exact hpre c2 h1
      · rw [if_pos (by simp [hm])] at h
        by_cases hc : r.registrationId = ""
        · rw [if_neg (by simp [hc])] at h
          exact ih (i + 1) acc tr0 e tr h
        · rw [if_pos (by simp [hc])] at h
          cases hst : store (StoreCall.update regId r.registrationId) with
          | some e2 =>
            rw [hst] at h
            obtain ⟨he, htr⟩ :
                e2 = e ∧ tr0 ++ [StoreCall.update regId r.registrationId] = tr := by
              cases h
              exact ⟨rfl, rfl⟩
            exact ⟨[], StoreCall.update regId r.registrationId, by simp [htr.symm],
              by rw [hst, he], by simp⟩
          | none =>
            rw [hst] at h
            obtain ⟨pre, c, htr, hcc, hpre⟩ :=
              ih (i + 1) acc (tr0 ++ [StoreCall.update regId r.registrationId]) e tr h
            refine ⟨StoreCall.update regId r.registrationId :: pre, c,
              by simp [htr], hcc, ?_⟩
            intro c2 hc2
            rcases List.mem_cons.mp hc2 with h1 | h1
            · rw [h1]; exact hst
            · exact hpre c2 h1

/-- C1: with every attempt answered by HTTP 200 and a non-empty retry
subset, `Send`'s loop never returns, for every configured
`MaxRetryAttempts` and every amount of fuel: the `continue` taken on the
200-with-retry path jumps past the attempt-bound check at line 146, so
the "Exhausted retry attempts" error is unreachable there and the loop
runs forever instead of stopping after the Nth attempt. -/
theorem send_unbounded_retry_loop (N : Int) (fuel : Nat) (st : SendState) :
    sendLoop ⟨defaultMinBackoff, defaultMaxBackoff, N⟩ storeOk
      (fun _ _ => (.ok retryResp : Except String Response)) ["t"] fuel st =
      none := by
  induction fuel generalizing st with
  | zero => rfl
  | succ n ih =>
    have hp : processResp storeOk ["t"] retryResp = .ok (some ["t"]) [] := rfl
    simp only [sendLoop, hp]
    norm_num [retryResp]
    exact ih _

/-- C2: running `Send` on the batch `["a", "b"]` against `c2Script`
succeeds — so the second attempt did send exactly the narrowed batch
`["b"]` — yet the store call issued while reconciling the second
attempt's single (terminal) result is `delete "a"`: the result at index 0
was paired with token 0 of the original caller-supplied batch, not with
token 0 of the narrowed batch `["b"]` that was actually sent. -/
theorem send_retry_reconciles_against_original_batch :
    Send DefaultClientOptions storeOk c2Script ["a", "b"] 3 =
      some (.ok ⟨108, 0, 1, 0, [⟨"", "", "NotRegistered"⟩], 0, ""⟩,
        [.delete "a"], 2000000000) := by
  decide

/-- C3: for every retry attempt with a server wait hint, the slept backoff
is `max(hint, minInterval)` — in particular it does not depend on
`maxInterval` at all, so a hint above the ceiling is honored verbatim —
and the exponential state `currentBackoff` carried to the next attempt is
unchanged. -/
theorem backoff_hint_honored_state_unchanged (opts : ClientOptions)
    (hint cur : Int) :
    sendBackoffUpdate opts (some hint) cur = (max hint opts.minBackoff, cur) := by
  simp only [sendBackoffUpdate, calcBackoff, Option.isNone, Bool.false_eq_true,
    if_false, Prod.mk.injEq]
  refine ⟨?_, trivial⟩
  rw [Int.max_def]
  split_ifs <;> omega

/-- C4: for every retry attempt without a server wait hint (when the
doubling does not overflow int64 and the configured interval is
non-degenerate), the slept backoff is `currentBackoff × 2` clamped into
`[minInterval, maxInterval]`, and that clamped value is exactly the
`currentBackoff` carried to the next attempt. -/
theorem backoff_nohint_clamped_doubling (opts : ClientOptions) (cur : Int)
    (hord : opts.minBackoff ≤ opts.maxBackoff)
    (hlo : -(2 ^ 62) ≤ cur) (hhi : cur < 2 ^ 62) :
    sendBackoffUpdate opts none cur =
      (min opts.maxBackoff (max opts.minBackoff (cur * 2)),
       min opts.maxBackoff (max opts.minBackoff (cur * 2))) := by
  have hw : i64wrap (cur * 2) = cur * 2 := by unfold i64wrap; omega
  simp only [sendBackoffUpdate, calcBackoff, hw, Option.isNone, if_true,
    Prod.mk.injEq, Int.min_def, Int.max_def]
  split_ifs <;> omega

/-- Witness for `backoff_nohint_clamped_doubling` at the default options
and the starting interval of one second. -/
theorem backoff_nohint_clamped_doubling_witness :
    DefaultClientOptions.minBackoff ≤ DefaultClientOptions.maxBackoff ∧
    -(2 ^ 62) ≤ defaultMinBackoff ∧ defaultMinBackoff < 2 ^ 62 ∧
    sendBackoffUpdate DefaultClientOptions none defaultMinBackoff =
      (2000000000, 2000000000) := by
  refine ⟨by decide, by decide, by decide, ?_⟩
  rw [backoff_nohint_clamped_doubling DefaultClientOptions defaultMinBackoff
    (by decide) (by decide) (by decide)]
  decide

/-- C5: with `minBackoff = 1s` and `maxBackoff = 10s`, the scripted
sequence `[hint 5s, no hint, no hint, hint 15s, success]` makes `Send`
return the final successful response having slept a total of exactly
`5 + 2 + 4 + 15 = 26` seconds. -/
theorem send_scripted_backoff_total_26s :
    Send ⟨1000000000, 10000000000, 5⟩ storeOk backoffScript ["t"] 6 =
      some (.ok ⟨108, 1, 0, 0, [⟨"12", "", ""⟩], 0, ""⟩, [], 26000000000) := by
  decide

/-- C6: for equal-length token/result sequences whose counts report some
failure or some canonical-id rename, and a store whose calls succeed,
`processResp` issues exactly the ordered update calls of the
delivered-with-rename positions and delete calls of the terminal-failure
positions (nothing for plain delivered or retry-eligible positions), and
returns exactly the tokens at retry-eligible positions in order. -/
theorem processResp_positional_classification (tokens : List String)
    (resp : Response)
    (hlen : resp.httpResp.results.length = tokens.length)
    (hnz : resp.httpResp.failure ≠ 0 ∨ resp.httpResp.canonicalIds ≠ 0) :
    processResp storeOk tokens resp =
      .ok (optOfList ((tokens.zip resp.httpResp.results).filterMap retrySel))
          ((tokens.zip resp.httpResp.results).filterMap callSel) := by
  unfold processResp
  rw [if_neg (by tauto)]
  have h := procLoop_ok_spec tokens resp.httpResp.results 0 [] [] (by omega)
  simpa using h

/-- Witness for `processResp_positional_classification` on the worked
example: retry subset `["8"]`, one delete for each terminal result, one
update for the rename-carrying result, in positional order. -/
theorem processResp_positional_classification_witness :
    c6Resp.httpResp.results.length = c6Tokens.length ∧
    (c6Resp.httpResp.failure ≠ 0 ∨ c6Resp.httpResp.canonicalIds ≠ 0) ∧
    processResp storeOk c6Tokens c6Resp =
      .ok (some ["8"])
        [.delete "15", .update "23" "32", .delete "42"] := by
  refine ⟨rfl, Or.inl (by decide), ?_⟩
  rw [processResp_positional_classification c6Tokens c6Resp rfl
    (Or.inl (by decide))]
  rfl

/-- C7: when a store mutation fails during reconciliation of a 200
response, the calls issued are some succeeding calls followed by exactly
the failing one — the remaining recipients are not processed — and `Send`
returns the store's own error value unchanged. -/
theorem store_error_aborts_and_propagates {E T : Type}
    (opts : ClientOptions) (store : StoreCall → Option E)
    (transport : Nat → List String → Except T Response)
    (tokens : List String) (resp : Response) (e : E) (tr : List StoreCall)
    (fuel : Nat)
    (hfail : processResp store tokens resp = .fail e tr)
    (hstatus : resp.statusCode = 200)
    (htrans : transport 0 tokens = .ok resp) :
    (∃ pre c, tr = pre ++ [c] ∧ store c = some e ∧
      ∀ c2 ∈ pre, store c2 = none) ∧
    Send opts store transport tokens (fuel + 1) =
      some (.err (.storeFail e), tr, 0) := by
  constructor
  · have hshape : ∃ pre c, tr = [] ++ (pre ++ [c]) ∧ store c = some e ∧
        ∀ c2 ∈ pre, store c2 = none := by
      unfold processResp at hfail
      by_cases hfast : resp.httpResp.failure = 0 ∧ resp.httpResp.canonicalIds = 0
      · rw [if_pos hfast] at hfail
        cases hfail
      · rw [if_neg hfast] at hfail
        exact procLoop_fail_shape store tokens resp.httpResp.results 0 [] [] e tr
          hfail
    simpa using hshape
  · simp only [Send, sendLoop, htrans, hstatus, hfail]
    norm_num

/-- Witness for `store_error_aborts_and_propagates`: the delete of `"x"`
fails with `"boom"`, reconciliation stops there, and `Send` returns
`"boom"` itself. -/
theorem store_error_aborts_and_propagates_witness :
    processResp c7Store ["x"] c7Resp = .fail "boom" [.delete "x"] ∧
    c7Resp.statusCode = 200 ∧
    (fun (_ : Nat) (_ : List String) => (.ok c7Resp : Except String Response))
      0 ["x"] = .ok c7Resp ∧
    ((∃ pre c, [StoreCall.delete "x"] = pre ++ [c] ∧ c7Store c = some "boom" ∧
        ∀ c2 ∈ pre, c7Store c2 = none) ∧
      Send DefaultClientOptions c7Store
        (fun _ _ => (.ok c7Resp : Except String Response)) ["x"] 1 =
        some (.err (.storeFail "boom"), [.delete "x"], 0)) :=
  ⟨rfl, rfl, rfl,
    store_error_aborts_and_propagates DefaultClientOptions c7Store
      (fun _ _ => .ok c7Resp) ["x"] c7Resp "boom" [.delete "x"] 0 rfl rfl rfl⟩

/-- C8 is refuted as stated: the numeric format parses a negative value,
so `parseRetryAfter "-5"` yields the negative hint of minus five seconds
(`time.ParseDuration("-5s") = -5s`); and an HTTP-date equal to the current
instant — which is "not after" it — yields a zero-duration hint rather
than "no hint", because the code's staleness test `t.Before(now)` is
strict. -/
theorem parseRetryAfter_claim_refuted :
    (parseRetryAfter goParseDurationFrag (fun _ => none) 1000 "-5" =
        .ok (some (-5000000000)) ∧ (-5000000000 : Int) < 0) ∧
    (parseRetryAfter (fun _ => none) (fun _ => some 77) 77 "date" =
        .ok (some 0) ∧ some (0 : Int) ≠ none) := by
  exact ⟨⟨rfl, by decide⟩, ⟨rfl, by decide⟩⟩

/-- C8 as amended: `parseRetryAfter` never raises (given a clock after
Go's zero time) and behaves as the corrected contract says — no hint for
empty, unrecognized, or strictly-past-date inputs; the exact non-negative
remaining duration (zero included) for a date at or after now; and the
parsed duration verbatim, negative values included, for numeric inputs.
The second conjunct records that only the numeric format can produce a
negative hint. -/
theorem parseRetryAfter_amended_contract (pd pt : String → Option Int)
    (now : Int) (date : String) (hnow : goZeroTime < now) :
    parseRetryAfter pd pt now date =
      .ok (parseRetryAfterAmendedSpec pd pt now date) ∧
    (∀ d : Int, pd (date ++ "s") = none →
      parseRetryAfter pd pt now date = .ok (some d) → 0 ≤ d) := by
  unfold parseRetryAfter parseRetryAfterAmendedSpec
  by_cases hd : date = ""
  · constructor
    · simp [hd]
    · intro d _ hres
      simp [hd] at hres
  · cases hpd : pd (date ++ "s") with
    | some v =>
      constructor
      · simp [hd, hpd]
      · intro d hpd2 _
        simp at hpd2
    | none =>
      cases hpt : pt date with
      | none =>
        constructor
        · simp [hd, hpd, hpt, hnow]
        · intro d _ hres
          simp [hd, hpd, hpt, hnow] at hres
      | some t =>
        by_cases hlt : t < now
        · constructor
          · simp [hd, hpd, hpt, hlt]
          · intro d _ hres
            simp [hd, hpd, hpt, hlt] at hres
        · constructor
          · simp [hd, hpd, hpt, hlt]
          · intro d _ hres
            simp [hd, hpd, hpt, hlt] at hres
            omega

/-- Witness for `parseRetryAfter_amended_contract` on an unrecognized
input: no hint, no error. -/
theorem parseRetryAfter_amended_contract_witness :
    goZeroTime < 1000 ∧
    parseRetryAfter goParseDurationFrag (fun _ => none) 1000 "junk" =
      .ok none :=
  ⟨by decide, by
    have h := (parseRetryAfter_amended_contract goParseDurationFrag
      (fun _ => none) 1000 "junk" (by decide)).1
    rw [h]
    rfl⟩

/-- C9: a response reporting zero failures and zero canonical-id renames
makes `processResp` return the `nil` retry subset with an empty store-call
trace, for every store and every result-list contents. -/
theorem processResp_fast_path_no_store_calls {E : Type}
    (store : StoreCall → Option E) (tokens : List String) (resp : Response)
    (hf : resp.httpResp.failure = 0) (hc : resp.httpResp.canonicalIds = 0) :
    processResp store tokens resp = .ok none [] := by
  unfold processResp
  rw [if_pos ⟨hf, hc⟩]

/-- Witness for `processResp_fast_path_no_store_calls` on a response with
a non-trivial result list. -/
theorem processResp_fast_path_no_store_calls_witness :
    c9Resp.httpResp.failure = 0 ∧ c9Resp.httpResp.canonicalIds = 0 ∧
    processResp storeOk ["a", "b"] c9Resp = .ok none [] :=
  ⟨rfl, rfl, processResp_fast_path_no_store_calls storeOk ["a", "b"] c9Resp rfl rfl⟩

/-- C10: when the counts demand reconciliation and the store succeeds,
`processResp` avoids the unguarded `registrationIds[i]` out-of-range
access exactly when the result list is no longer than the token
sequence; a longer result list reaches the out-of-range index. -/
theorem processResp_index_bound_iff (tokens : List String) (resp : Response)
    (hnz : resp.httpResp.failure ≠ 0 ∨ resp.httpResp.canonicalIds ≠ 0) :
    (processResp storeOk tokens resp ≠ .panic ↔
      resp.httpResp.results.length ≤ tokens.length) := by
  unfold processResp
  rw [if_neg (by tauto)]
  constructor
  · intro hnp
    by_contra hgt
    push_neg at hgt
    have hne : resp.httpResp.results ≠ [] := by
      intro h0
      rw [h0] at hgt
      simp at hgt
    exact hnp (procLoop_panic tokens resp.httpResp.results 0 [] [] hne
      (by omega))
  · intro hle
    rw [procLoop_ok_spec tokens resp.httpResp.results 0 [] [] (by omega)]
    simp

/-- Witness for `processResp_index_bound_iff`: one token, one failing
result — in range, no panic. -/
theorem processResp_index_bound_iff_witness :
    ((retryResp.httpResp.failure ≠ 0 ∨ retryResp.httpResp.canonicalIds ≠ 0) ∧
      (processResp storeOk ["t"] retryResp ≠ .panic ↔
        retryResp.httpResp.results.length ≤ (["t"] : List String).length)) :=
  ⟨Or.inl (by decide), processResp_index_bound_iff ["t"] retryResp
    (Or.inl (by decide))⟩

end Fcm
